import Mathlib

/-!
Verification of the Nexus pipeline system (`src/ex2/nexus_pipeline.py`):
processing stages, pipeline adapters (JSON / CSV / Stream), a bounded
stream buffer, and the NexusManager router.  Python runtime values are
shallowly embedded as the inductive type `Data`; a raised exception is
an `Except.error` carrying the exception's message (`str(e)`); wall-clock
durations are explicit rational parameters.
-/

/-- Embedding of the Python values flowing through the pipelines:
`None`, booleans, ints, floats (idealised as rationals), strings,
lists and (insertion-ordered) dicts with string keys. -/
inductive Data where
  | none_ : Data
  | bool  : Bool → Data
  | int   : Int → Data
  | float : Rat → Data
  | str   : String → Data
  | list  : List Data → Data
  | dict  : List (String × Data) → Data
deriving Repr

/-- The `{` character, written via its code point. -/
def lbrace : Char := Char.ofNat 123

/-- The `}` character, written via its code point. -/
def rbrace : Char := Char.ofNat 125

mutual

/-- Model of Python `repr` on embedded values (string escapes are not
modelled; floats are rendered as rationals — neither is exercised by the
verified scenarios). -/
def pyRepr : Data → String
  | Data.none_ => "None"
  | Data.bool b => if b then "True" else "False"
  | Data.int n => toString n
  | Data.float q => toString q
  | Data.str s => "\x27" ++ s ++ "\x27"
  | Data.list xs => "[" ++ String.intercalate ", " (pyReprList xs) ++ "]"
  | Data.dict ps => "\x7b" ++ String.intercalate ", " (pyReprPairs ps) ++ "\x7d"

/-- `pyRepr` mapped over a list of values. -/
def pyReprList : List Data → List String
  | [] => []
  | x :: xs => pyRepr x :: pyReprList xs

/-- `pyRepr` mapped over the entries of a dict. -/
def pyReprPairs : List (String × Data) → List String
  | [] => []
  | (k, v) :: ps => ("\x27" ++ k ++ "\x27: " ++ pyRepr v) :: pyReprPairs ps

end

/-- Model of Python `str`: identity on strings, `repr` otherwise. -/
def pyStr : Data → String
  | Data.str s => s
  | d => pyRepr d

mutual

/-- Model of `json.dumps` with the default separators
(`", "` between items, `": "` after keys). -/
def jsonDumps : Data → String
  | Data.none_ => "null"
  | Data.bool b => if b then "true" else "false"
  | Data.int n => toString n
  | Data.float q => toString q
  | Data.str s => "\"" ++ s ++ "\""
  | Data.list xs => "[" ++ String.intercalate ", " (jsonDumpsList xs) ++ "]"
  | Data.dict ps => "\x7b" ++ String.intercalate ", " (jsonDumpsPairs ps) ++ "\x7d"

/-- `jsonDumps` mapped over a list of values. -/
def jsonDumpsList : List Data → List String
  | [] => []
  | x :: xs => jsonDumps x :: jsonDumpsList xs

/-- `jsonDumps` mapped over the entries of a dict. -/
def jsonDumpsPairs : List (String × Data) → List String
  | [] => []
  | (k, v) :: ps => ("\"" ++ k ++ "\": " ++ jsonDumps v) :: jsonDumpsPairs ps

end

/-- Drop leading JSON whitespace. -/
def skipWs : List Char → List Char
  | [] => []
  | c :: cs =>
    if c = ' ' ∨ c = '\t' ∨ c = '\n' ∨ c = '\r' then skipWs cs else c :: cs

/-- Split a leading run of decimal digits from the rest. -/
def takeDigits : List Char → List Char × List Char
  | [] => ([], [])
  | c :: cs =>
    if c.isDigit then
      let p := takeDigits cs
      (c :: p.1, p.2)
    else ([], c :: cs)

/-- Decimal value of a digit run. -/
def digitsToNat (ds : List Char) : Nat :=
  ds.foldl (fun a c => a * 10 + (c.toNat - 48)) 0

/-- Scan a JSON string body up to the closing quote
(escape sequences are not modelled). -/
def takeStr : List Char → Option (List Char × List Char)
  | [] => none
  | c :: cs =>
    if c = '"' then some ([], cs)
    else (takeStr cs).map (fun p => (c :: p.1, p.2))

mutual

/-- Fueled model of the `json.loads` value grammar: objects, arrays,
strings, integers, `true`/`false`/`null`.  `none` models a
`JSONDecodeError`. -/
def parseVal : Nat → List Char → Option (Data × List Char)
  | 0, _ => none
  | fuel + 1, cs =>
    match skipWs cs with
    | [] => none
    | c :: rest =>
      if c = lbrace then parseObj fuel rest
      else if c = '[' then parseArr fuel rest
      else if c = '"' then
        (takeStr rest).map (fun p => (Data.str (String.mk p.1), p.2))
      else if c = 't' then
        match rest with
        | 'r' :: 'u' :: 'e' :: rs => some (Data.bool true, rs)
        | _ => none
      else if c = 'f' then
        match rest with
        | 'a' :: 'l' :: 's' :: 'e' :: rs => some (Data.bool false, rs)
        | _ => none
      else if c = 'n' then
        match rest with
        | 'u' :: 'l' :: 'l' :: rs => some (Data.none_, rs)
        | _ => none
      else if c = '-' then
        match takeDigits rest with
        | ([], _) => none
        | (ds, rs) => some (Data.int (-(digitsToNat ds : Int)), rs)
      else if c.isDigit then
        let p := takeDigits (c :: rest)
        some (Data.int (digitsToNat p.1), p.2)
      else none

/-- Parse the remainder of a JSON object after its opening brace. -/
def parseObj : Nat → List Char → Option (Data × List Char)
  | 0, _ => none
  | fuel + 1, cs =>
    match skipWs cs with
    | [] => none
    | c :: rest =>
      if c = rbrace then some (Data.dict [], rest)
      else
        match parseMembers fuel (c :: rest) with
        | some (ps, r) => some (Data.dict ps, r)
        | none => none

/-- Parse `"key": value` members up to and including the closing brace. -/
def parseMembers : Nat → List Char → Option (List (String × Data) × List Char)
  | 0, _ => none
  | fuel + 1, cs =>
    match skipWs cs with
    | '"' :: rest =>
      match takeStr rest with
      | none => none
      | some (key, rest2) =>
        match skipWs rest2 with
        | ':' :: rest3 =>
          match parseVal fuel rest3 with
          | none => none
          | some (v, rest4) =>
            match skipWs rest4 with
            | [] => none
            | c :: rest5 =>
              if c = ',' then
                match parseMembers fuel rest5 with
                | none => none
                | some (ps, rest6) => some ((String.mk key, v) :: ps, rest6)
              else if c = rbrace then some ([(String.mk key, v)], rest5)
              else none
        | _ => none
    | _ => none

/-- Parse the remainder of a JSON array after its opening bracket. -/
def parseArr : Nat → List Char → Option (Data × List Char)
  | 0, _ => none
  | fuel + 1, cs =>
    match skipWs cs with
    | [] => none
    | c :: rest =>
      if c = ']' then some (Data.list [], rest)
      else
        match parseItems fuel (c :: rest) with
        | some (xs, r) => some (Data.list xs, r)
        | none => none

/-- Parse array items up to and including the closing bracket. -/
def parseItems : Nat → List Char → Option (List Data × List Char)
  | 0, _ => none
  | fuel + 1, cs =>
    match parseVal fuel cs with
    | none => none
    | some (v, rest) =>
      match skipWs rest with
      | [] => none
      | c :: rest2 =>
        if c = ',' then
          match parseItems fuel rest2 with
          | none => none
          | some (xs, rest3) => some (v :: xs, rest3)
        else if c = ']' then some ([v], rest2)
        else none

end

/-- Model of `json.loads`: parse one value and require only whitespace
after it; `none` models a raised `JSONDecodeError`. -/
def json_loads (s : String) : Option Data :=
  match parseVal (s.length + 1) s.data with
  | some (v, rest) => if skipWs rest = [] then some v else none
  | none => none

/-- Python `s.startswith(c)` for a one-character prefix: the first
character of `s` is `c` (false on the empty string). -/
def strHeadIs (s : String) (c : Char) : Bool :=
  match s.data with
  | c0 :: _ => c0 = c
  | [] => false

/-- Python `sep in s` for a one-character separator. -/
def strHasChar (s : String) (c : Char) : Bool :=
  s.data.contains c

/-- Python `s.split(sep)` over char lists, for a one-character
separator. -/
def splitOnCharList (sep : Char) : List Char → List (List Char)
  | [] => [[]]
  | c :: cs =>
    let r := splitOnCharList sep cs
    if c = sep then [] :: r
    else
      match r with
      | h :: t => (c :: h) :: t
      | [] => [[c]]

/-- Python `s.split(sep)` for a one-character separator. -/
def pySplit (s : String) (sep : Char) : List String :=
  (splitOnCharList sep s.data).map String.mk

/-- In-place dict assignment `d[k] = v`: update an existing key,
otherwise append at the end (Python insertion order). -/
def dictSet (ps : List (String × Data)) (k : String) (v : Data) :
    List (String × Data) :=
  if ps.any (fun p => p.1 = k) then
    ps.map (fun p => if p.1 = k then (k, v) else p)
  else ps ++ [(k, v)]

/-- `InputStage.process`: reject `None`; on strings, attempt JSON parsing
when the text starts with a brace or bracket, fall back to comma
splitting, otherwise pass through. -/
def InputStage.process (data : Data) : Except String Data :=
  match data with
  | Data.none_ => Except.error "Input data cannot be None"
  | Data.str s =>
    match (if strHeadIs s lbrace || strHeadIs s '[' then json_loads s
           else none) with
    | some v => Except.ok v
    | none =>
      if strHasChar s ',' then
        Except.ok (Data.list ((pySplit s ',').map Data.str))
      else Except.ok (Data.str s)
  | d => Except.ok d

/-- `TransformStage.process`: enrich the value with `_processed` and (for
dicts) `_timestamp` markers; `t` is the value of `time.time()` at the
call. -/
def TransformStage.process (t : Rat) (data : Data) : Except String Data :=
  match data with
  | Data.dict ps =>
    Except.ok (Data.dict
      (dictSet (dictSet ps "_processed" (Data.bool true)) "_timestamp"
        (Data.float t)))
  | Data.list xs =>
    Except.ok (Data.dict
      [("items", Data.list xs), ("count", Data.int xs.length),
       ("_processed", Data.bool true)])
  | Data.str s =>
    Except.ok (Data.dict
      [("text", Data.str s), ("length", Data.int s.length),
       ("_processed", Data.bool true)])
  | d => Except.ok (Data.dict [("value", d), ("_processed", Data.bool true)])

/-- `OutputStage.process`: render dicts as `key=value` pairs (keys
starting with an underscore excluded), lists as an item count, anything
else through `str`. -/
def OutputStage.process (data : Data) : Except String Data :=
  match data with
  | Data.dict ps =>
    Except.ok (Data.str ("Output: " ++ String.intercalate ", "
      ((ps.filter (fun p => ¬ strHeadIs p.1 '_')).map
        (fun p => p.1 ++ "=" ++ pyStr p.2))))
  | Data.list xs =>
    Except.ok (Data.str ("Output: List with " ++ toString xs.length
      ++ " items"))
  | d => Except.ok (Data.str ("Output: " ++ pyStr d))

/-- A processing stage: the three standard stages, or any other object
satisfying the `ProcessingStage` protocol (modelled as a function, e.g.
the demo's `FailingStage`). -/
inductive Stage where
  | input : Stage
  | transform : Stage
  | output : Stage
  | custom : (Data → Except String Data) → Stage

/-- Run one stage on a value; `t` is the current `time.time()`. -/
def runStage (t : Rat) : Stage → Data → Except String Data
  | Stage.input, d => InputStage.process d
  | Stage.transform, d => TransformStage.process t d
  | Stage.output, d => OutputStage.process d
  | Stage.custom f, d => f d

/-- The stage loop `for stage in self.stages: current_data =
stage.process(current_data)`, propagating a raised exception. -/
def runStages (t : Rat) : List Stage → Data → Except String Data
  | [], d => Except.ok d
  | s :: rest, d =>
    match runStage t s d with
    | Except.ok d2 => runStages t rest d2
    | Except.error e => Except.error e

/-- The stages installed by every adapter's constructor. -/
def defaultStages : List Stage := [Stage.input, Stage.transform, Stage.output]

/-- Mutable counters of a `ProcessingPipeline`. -/
structure PipeState where
  processed_count : Nat
  error_count : Nat
  total_time : Rat
deriving Repr

/-- Counters of a freshly constructed pipeline. -/
def freshPipe : PipeState := { processed_count := 0, error_count := 0, total_time := 0 }

/-- State of a `StreamAdapter`: the inherited counters plus the bounded
buffer. -/
structure StreamState extends PipeState where
  buffer : List Data
deriving Repr

/-- State of a freshly constructed `StreamAdapter`. -/
def freshStream : StreamState := { toPipeState := freshPipe, buffer := [] }

/-- `JSONAdapter`'s input normalization:
`if isinstance(data, dict): data = json.dumps(data)`. -/
def jsonNormalize (data : Data) : Data :=
  match data with
  | Data.dict _ => Data.str (jsonDumps data)
  | d => d

/-- `CSVAdapter`'s input normalization:
`if not isinstance(data, str): data = str(data)`. -/
def csvNormalize (data : Data) : Data :=
  match data with
  | Data.str s => Data.str s
  | d => Data.str (pyStr d)

/-- One `append` on a `collections.deque(maxlen := c)`: keep the last
`c` elements, evicting from the front. -/
def dequeAppend (c : Nat) (buf : List Data) (x : Data) : List Data :=
  let l := buf ++ [x]
  l.drop (l.length - c)

/-- `JSONAdapter.process`: bump `processed_count`, serialize dict input,
fold the stages; on success accumulate the elapsed wall-clock time
(`elapsed`) and stringify the result, on a raised exception bump
`error_count` and return the error string.  `t` is the `time.time()`
seen by the stages. -/
def JSONAdapter.process (st : PipeState) (stages : List Stage)
    (t elapsed : Rat) (data : Data) : PipeState × String :=
  let st1 := { st with processed_count := st.processed_count + 1 }
  match runStages t stages (jsonNormalize data) with
  | Except.ok cur =>
    ({ st1 with total_time := st1.total_time + elapsed }, pyStr cur)
  | Except.error e =>
    ({ st1 with error_count := st1.error_count + 1 },
     "Error processing JSON: " ++ e)

/-- `CSVAdapter.process`: as the JSON adapter but coercing non-string
input through `str`. -/
def CSVAdapter.process (st : PipeState) (stages : List Stage)
    (t elapsed : Rat) (data : Data) : PipeState × String :=
  let st1 := { st with processed_count := st.processed_count + 1 }
  match runStages t stages (csvNormalize data) with
  | Except.ok cur =>
    ({ st1 with total_time := st1.total_time + elapsed }, pyStr cur)
  | Except.error e =>
    ({ st1 with error_count := st1.error_count + 1 },
     "Error processing CSV: " ++ e)

/-- `StreamAdapter.process`: append the raw input to the bounded buffer
(capacity 100), then run the stages as in the other adapters. -/
def StreamAdapter.process (st : StreamState) (stages : List Stage)
    (t elapsed : Rat) (data : Data) : StreamState × String :=
  let st1 := { st with processed_count := st.processed_count + 1,
                       buffer := dequeAppend 100 st.buffer data }
  match runStages t stages data with
  | Except.ok cur =>
    ({ st1 with total_time := st1.total_time + elapsed }, pyStr cur)
  | Except.error e =>
    ({ st1 with error_count := st1.error_count + 1 },
     "Error processing stream: " ++ e)

/-- Round-half-to-even on rationals, the rounding used by Python's
`round`. -/
def roundHalfEven (x : Rat) : Int :=
  let f : Int := Int.floor x
  let r : Rat := x - f
  if r < 1 / 2 then f
  else if 1 / 2 < r then f + 1
  else if f % 2 = 0 then f else f + 1

/-- Python `round(x, 1)` idealised over the rationals. -/
def pyRound1 (x : Rat) : Rat := (roundHalfEven (x * 10) : Rat) / 10

/-- Python `round(x, 2)` idealised over the rationals. -/
def pyRound2 (x : Rat) : Rat := (roundHalfEven (x * 100) : Rat) / 100

/-- The record returned by `ProcessingPipeline.get_stats`. -/
structure Stats where
  pipeline_id : String
  processed : Nat
  errors : Nat
  efficiency : Rat
  total_time : Rat
deriving Repr

/-- `ProcessingPipeline.get_stats`. -/
def ProcessingPipeline.get_stats (pid : String) (st : PipeState) : Stats :=
  let efficiency : Rat :=
    if st.processed_count = 0 then 100
    else ((st.processed_count : Rat) - (st.error_count : Rat))
           / (st.processed_count : Rat) * 100
  { pipeline_id := pid,
    processed := st.processed_count,
    errors := st.error_count,
    efficiency := pyRound1 efficiency,
    total_time := pyRound2 st.total_time }

/-- The three pipeline variants. -/
inductive Variant where
  | json : Variant
  | csv : Variant
  | stream : Variant

/-- The `<kind>` word in a variant's error string. -/
def Variant.kind : Variant → String
  | Variant.json => "JSON"
  | Variant.csv => "CSV"
  | Variant.stream => "stream"

/-- The input actually fed to the stage loop by each variant. -/
def Variant.normalize (v : Variant) (data : Data) : Data :=
  match v with
  | Variant.json => jsonNormalize data
  | Variant.csv => csvNormalize data
  | Variant.stream => data

/-- One `process` call on a pipeline of the given variant, over the
common state carrier (`buffer` is untouched by JSON/CSV). -/
def Variant.step (v : Variant) (stages : List Stage) (st : StreamState)
    (t elapsed : Rat) (data : Data) : StreamState × String :=
  match v with
  | Variant.json =>
    let r := JSONAdapter.process st.toPipeState stages t elapsed data
    ({ st with toPipeState := r.1 }, r.2)
  | Variant.csv =>
    let r := CSVAdapter.process st.toPipeState stages t elapsed data
    ({ st with toPipeState := r.1 }, r.2)
  | Variant.stream => StreamAdapter.process st stages t elapsed data

/-- Fold a sequence of `process` calls (each giving the call's
`time.time()`, elapsed duration and input) over a pipeline's state. -/
def Variant.runCalls (v : Variant) (stages : List Stage) :
    StreamState → List (Rat × Rat × Data) → StreamState
  | st, [] => st
  | st, (t, e, d) :: rest =>
    v.runCalls stages (v.step stages st t e d).1 rest

/-- A registered pipeline as the manager sees it: `process` maps an
input to a returned string or a raised exception (`Except.error` with
the exception's message).  The claims about the manager quantify over
the behaviour of the registered pipelines, so a pipeline is abstracted
to its deterministic input/output behaviour. -/
def MPipe : Type := Data → Except String String

/-- State of a `NexusManager`. -/
structure NexusManager where
  capacity : Int
  pipelines : List MPipe
  total_processed : Nat
  backup_pipeline : Option MPipe

/-- `NexusManager.process_data`: guard the index, dispatch, bump
`total_processed` after a normal return; a raised exception falls to the
backup pipeline when one is set, otherwise becomes an error string.
The returned `Except` is `ok` on a normal return and `error` when
`process_data` itself raises (only possible if the backup raises). -/
def NexusManager.process_data (m : NexusManager) (pipeline_index : Int)
    (data : Data) : NexusManager × Except String String :=
  if h : 0 ≤ pipeline_index ∧ pipeline_index.toNat < m.pipelines.length then
    match m.pipelines.get ⟨pipeline_index.toNat, h.2⟩ data with
    | Except.ok result =>
      ({ m with total_processed := m.total_processed + 1 }, Except.ok result)
    | Except.error e =>
      match m.backup_pipeline with
      | some backup => (m, backup data)
      | none => (m, Except.ok ("Error: " ++ e))
  else (m, Except.ok "Error: Invalid pipeline index")

/-- `NexusManager.chain_pipelines`: thread the data through the indexed
pipelines, each output (a string) becoming the next input;
short-circuit with an error string at an out-of-range index; a raised
exception propagates. -/
def NexusManager.chain_pipelines (m : NexusManager) :
    Data → List Int → Except String Data
  | cur, [] => Except.ok cur
  | cur, idx :: rest =>
    if h : 0 ≤ idx ∧ idx.toNat < m.pipelines.length then
      match m.pipelines.get ⟨idx.toNat, h.2⟩ cur with
      | Except.ok s => m.chain_pipelines (Data.str s) rest
      | Except.error e => Except.error e
    else Except.ok (Data.str ("Error: Invalid pipeline index " ++ toString idx))

/-- `chain_pipelines` instrumented with the list of `(index, input)`
invocations actually made, used to state that nothing past the first
invalid index is invoked. -/
def NexusManager.chainTrace (m : NexusManager) :
    Data → List Int → Except String Data × List (Nat × Data)
  | cur, [] => (Except.ok cur, [])
  | cur, idx :: rest =>
    if h : 0 ≤ idx ∧ idx.toNat < m.pipelines.length then
      match m.pipelines.get ⟨idx.toNat, h.2⟩ cur with
      | Except.ok s =>
        let r := m.chainTrace (Data.str s) rest
        (r.1, (idx.toNat, cur) :: r.2)
      | Except.error e => (Except.error e, [(idx.toNat, cur)])
    else
      (Except.ok (Data.str ("Error: Invalid pipeline index " ++ toString idx)),
       [])

/-- Modelled from the spec: `chain_pipelines` "threads `input` through
each named pipeline's `process` in the given order — output of pipeline
*i* becomes the input of pipeline *i+1*".  Stated without the index
guard, to be compared with the source definition on in-range index
lists. -/
def chainSpecThread (m : NexusManager) :
    Data → List Int → Except String Data
  | cur, [] => Except.ok cur
  | cur, idx :: rest =>
    match (m.pipelines.getD idx.toNat (fun _ => Except.error "")) cur with
    | Except.ok s => chainSpecThread m (Data.str s) rest
    | Except.error e => Except.error e

/-- A pipeline whose `process` always returns `str(input)`. -/
def echoPipe : MPipe := fun d => Except.ok (pyStr d)

/-- A pipeline whose `process` raises on every input. -/
def failPipe : MPipe := fun _ => Except.error "boom"

/-- A pipeline whose `process` always returns `"recovered"`. -/
def backupPipe : MPipe := fun _ => Except.ok "recovered"

/-- Manager fixture: one raising pipeline and a backup. -/
def mgrBackup : NexusManager :=
  { capacity := 1000, pipelines := [failPipe], total_processed := 0,
    backup_pipeline := some backupPipe }

/-- Manager fixture: two well-behaved pipelines, no backup. -/
def mgrTwo : NexusManager :=
  { capacity := 1000, pipelines := [echoPipe, echoPipe], total_processed := 3,
    backup_pipeline := none }

/-- Manager fixture: one well-behaved pipeline, no backup. -/
def mgrOne : NexusManager :=
  { capacity := 1000, pipelines := [echoPipe], total_processed := 0,
    backup_pipeline := none }

/-- `pyRound1` fixes the integer 100. -/
theorem pyRound1_hundred : pyRound1 100 = 100 := by
  norm_num [pyRound1, roundHalfEven]

/-- C6: the efficiency reported by `get_stats` is `100.0` when
`processed_count = 0` and otherwise
`(processed_count - error_count) / processed_count * 100` rounded to one
decimal place. -/
theorem get_stats_efficiency_formula (pid : String) (st : PipeState) :
    (ProcessingPipeline.get_stats pid st).efficiency =
      if st.processed_count = 0 then (100 : Rat)
      else pyRound1 (((st.processed_count : Rat) - (st.error_count : Rat))
             / (st.processed_count : Rat) * 100) := by
  unfold ProcessingPipeline.get_stats
  by_cases h : st.processed_count = 0
  · simp [h, pyRound1_hundred]
  · simp [h]

/-- C3: an out-of-range index makes `process_data` return the string
`"Error: Invalid pipeline index"` (a normal return, not a raise) and
leaves `total_processed` unchanged. -/
theorem process_data_invalid_index (m : NexusManager) (i : Int) (d : Data)
    (h : i < 0 ∨ (m.pipelines.length : Int) ≤ i) :
    (m.process_data i d).2 = Except.ok "Error: Invalid pipeline index"
    ∧ (m.process_data i d).1.total_processed = m.total_processed := by
  have hc : ¬ (0 ≤ i ∧ i.toNat < m.pipelines.length) := by
    rcases h with h | h
    · intro hc
      omega
    · intro hc
      omega
  simp [NexusManager.process_data, hc]

/-- Witness for C3: index 5 on a 2-pipeline registry. -/
theorem process_data_invalid_index_witness :
    (mgrTwo.process_data 5 (Data.str "x")).2
        = Except.ok "Error: Invalid pipeline index"
    ∧ (mgrTwo.process_data 5 (Data.str "x")).1.total_processed
        = mgrTwo.total_processed :=
  process_data_invalid_index mgrTwo 5 (Data.str "x") (Or.inr (by decide))

/-- C2: when the dispatched pipeline's `process` raises, `process_data`
leaves `total_processed` unchanged and returns the backup pipeline's
result on the same input when a backup is set, and the string
`"Error: <message>"` when none is set. -/
theorem process_data_backup_recovery (m : NexusManager) (i : Int) (d : Data)
    (e : String) (h : 0 ≤ i ∧ i.toNat < m.pipelines.length)
    (hraise : m.pipelines.get ⟨i.toNat, h.2⟩ d = Except.error e) :
    (m.process_data i d).1.total_processed = m.total_processed
    ∧ (∀ b, m.backup_pipeline = some b → (m.process_data i d).2 = b d)
    ∧ (m.backup_pipeline = none →
        (m.process_data i d).2 = Except.ok ("Error: " ++ e)) := by
  have hred : m.process_data i d =
      (match m.backup_pipeline with
       | some backup => (m, backup d)
       | none => (m, Except.ok ("Error: " ++ e))) := by
    unfold NexusManager.process_data
    rw [dif_pos h, hraise]
  refine ⟨?_, ?_, ?_⟩
  · rw [hred]
    cases m.backup_pipeline <;> rfl
  · intro b hb
    rw [hred, hb]
  · intro hb
    rw [hred, hb]

/-- Witness for C2: a raising primary with a backup set. -/
theorem process_data_backup_recovery_witness :
    (mgrBackup.process_data 0 Data.none_).1.total_processed
        = mgrBackup.total_processed
    ∧ (∀ b, mgrBackup.backup_pipeline = some b →
        (mgrBackup.process_data 0 Data.none_).2 = b Data.none_)
    ∧ (mgrBackup.backup_pipeline = none →
        (mgrBackup.process_data 0 Data.none_).2
          = Except.ok ("Error: " ++ "boom")) :=
  process_data_backup_recovery mgrBackup 0 Data.none_ "boom"
    ⟨by decide, by decide⟩ rfl

/-- C1 counterexample: the JSON adapter on input `None` with a 1-second
attempt takes the error branch (it reports the error string), yet
`total_time` is NOT increased by the elapsed time — the claim's
conjunction fails at this input. -/
theorem process_failure_time_counterexample :
    (JSONAdapter.process freshPipe defaultStages 0 1 Data.none_).2
        = "Error processing JSON: Input data cannot be None"
    ∧ ¬ (JSONAdapter.process freshPipe defaultStages 0 1 Data.none_).1.total_time
        = freshPipe.total_time + 1 := by
  refine ⟨rfl, ?_⟩
  intro hc
  have h0 : (JSONAdapter.process freshPipe defaultStages 0 1
      Data.none_).1.total_time = 0 := rfl
  rw [h0] at hc
  norm_num [freshPipe] at hc

/-- C1 (amended): when the stage fold over the variant's normalized
input raises, `process` increments `error_count` by 1 and returns
`"Error processing <kind>: <message>"` instead of raising, but leaves
`total_time` unchanged (a failed attempt's elapsed time is not
accumulated). -/
theorem process_failure_counts (v : Variant) (st : StreamState)
    (stages : List Stage) (t elapsed : Rat) (d : Data) (msg : String)
    (h : runStages t stages (v.normalize d) = Except.error msg) :
    (v.step stages st t elapsed d).1.error_count = st.error_count + 1
    ∧ (v.step stages st t elapsed d).1.total_time = st.total_time
    ∧ (v.step stages st t elapsed d).2
        = "Error processing " ++ v.kind ++ ": " ++ msg := by
  cases v <;>
    simp only [Variant.normalize] at h <;>
    simp [Variant.step, Variant.kind, JSONAdapter.process, CSVAdapter.process,
      StreamAdapter.process, h]

/-- Witness for C1 (amended): JSON variant, input `None`. -/
theorem process_failure_counts_witness :
    (Variant.json.step defaultStages freshStream 0 1 Data.none_).1.error_count
        = freshStream.error_count + 1
    ∧ (Variant.json.step defaultStages freshStream 0 1
        Data.none_).1.total_time = freshStream.total_time
    ∧ (Variant.json.step defaultStages freshStream 0 1 Data.none_).2
        = "Error processing " ++ Variant.json.kind ++ ": "
          ++ "Input data cannot be None" :=
  process_failure_counts Variant.json freshStream defaultStages 0 1
    Data.none_ "Input data cannot be None" rfl

/-- C10: `StreamAdapter.process` appends the raw input to the bounded
buffer before the stages run, so a call whose stage raises still
mutates the buffer even though it is reported as failed. -/
theorem stream_buffer_mutated_on_error (st : StreamState)
    (stages : List Stage) (t elapsed : Rat) (d : Data) (msg : String)
    (h : runStages t stages d = Except.error msg) :
    (StreamAdapter.process st stages t elapsed d).1.buffer
        = dequeAppend 100 st.buffer d
    ∧ (StreamAdapter.process st stages t elapsed d).2
        = "Error processing stream: " ++ msg
    ∧ (StreamAdapter.process st stages t elapsed d).1.error_count
        = st.error_count + 1 := by
  simp [StreamAdapter.process, h]

/-- Witness for C10: stream adapter, input `None` raises in the input
stage; the buffer still receives the input. -/
theorem stream_buffer_mutated_on_error_witness :
    (StreamAdapter.process freshStream defaultStages 0 1 Data.none_).1.buffer
        = dequeAppend 100 freshStream.buffer Data.none_
    ∧ (StreamAdapter.process freshStream defaultStages 0 1 Data.none_).2
        = "Error processing stream: " ++ "Input data cannot be None"
    ∧ (StreamAdapter.process freshStream defaultStages 0 1
        Data.none_).1.error_count = freshStream.error_count + 1 :=
  stream_buffer_mutated_on_error freshStream defaultStages 0 1 Data.none_
    "Input data cannot be None" rfl

/-- One `process` call bumps `processed_count` by exactly 1 and
`error_count` by 0 or 1, whatever the variant and outcome. -/
theorem step_counts (v : Variant) (stages : List Stage) (st : StreamState)
    (t elapsed : Rat) (d : Data) :
    (v.step stages st t elapsed d).1.processed_count = st.processed_count + 1
    ∧ ((v.step stages st t elapsed d).1.error_count = st.error_count
       ∨ (v.step stages st t elapsed d).1.error_count = st.error_count + 1) := by
  cases v
  · cases hr : runStages t stages (jsonNormalize d) <;>
      simp [Variant.step, JSONAdapter.process, hr]
  · cases hr : runStages t stages (csvNormalize d) <;>
      simp [Variant.step, CSVAdapter.process, hr]
  · cases hr : runStages t stages d <;>
      simp [Variant.step, StreamAdapter.process, hr]

/-- The counter invariant is preserved by any sequence of calls. -/
theorem runCalls_invariant (v : Variant) (stages : List Stage)
    (calls : List (Rat × Rat × Data)) :
    ∀ st : StreamState, st.error_count ≤ st.processed_count →
      (v.runCalls stages st calls).error_count
        ≤ (v.runCalls stages st calls).processed_count := by
  induction calls with
  | nil =>
    intro st h
    simpa [Variant.runCalls] using h
  | cons c rest ih =>
    intro st h
    obtain ⟨t, e, d⟩ := c
    rw [Variant.runCalls]
    apply ih
    have hs := step_counts v stages st t e d
    rcases hs.2 with h2 | h2 <;> omega

/-- C7: starting from a freshly constructed pipeline of any variant,
`error_count ≤ processed_count` holds after every sequence of `process`
calls. -/
theorem error_count_le_processed_count (v : Variant) (stages : List Stage)
    (calls : List (Rat × Rat × Data)) :
    (v.runCalls stages freshStream calls).error_count
      ≤ (v.runCalls stages freshStream calls).processed_count :=
  runCalls_invariant v stages calls freshStream (Nat.le_refl 0)

/-- C8: the input stage parses `'{"a":1}'` to the mapping `{a: 1}`, the
transform stage adds the `_processed` and `_timestamp` markers, and the
output stage renders the enriched mapping as `"Output: a=1"`, excluding
the marker fields. -/
theorem scenario_json_object_stages (t : Rat) :
    InputStage.process (Data.str "\x7b\"a\":1\x7d")
        = Except.ok (Data.dict [("a", Data.int 1)])
    ∧ TransformStage.process t (Data.dict [("a", Data.int 1)])
        = Except.ok (Data.dict [("a", Data.int 1),
            ("_processed", Data.bool true), ("_timestamp", Data.float t)])
    ∧ OutputStage.process (Data.dict [("a", Data.int 1),
          ("_processed", Data.bool true), ("_timestamp", Data.float t)])
        = Except.ok (Data.str "Output: a=1") :=
  ⟨rfl, rfl, rfl⟩

/-- Unfolding of one chain step at an in-range index. -/
theorem chain_cons_in_range (m : NexusManager) (cur : Data) (i : Int)
    (rest : List Int) (h : 0 ≤ i ∧ i.toNat < m.pipelines.length) :
    m.chain_pipelines cur (i :: rest)
      = match m.pipelines.get ⟨i.toNat, h.2⟩ cur with
        | Except.ok s => m.chain_pipelines (Data.str s) rest
        | Except.error e => Except.error e := by
  rw [NexusManager.chain_pipelines, dif_pos h]

/-- Unfolding of one chain step at an out-of-range index. -/
theorem chain_cons_invalid (m : NexusManager) (cur : Data) (i : Int)
    (rest : List Int) (h : ¬ (0 ≤ i ∧ i.toNat < m.pipelines.length)) :
    m.chain_pipelines cur (i :: rest)
      = Except.ok (Data.str ("Error: Invalid pipeline index "
          ++ toString i)) := by
  rw [NexusManager.chain_pipelines, dif_neg h]

/-- C9: with in-range indices, feeding the value of
`chain_pipelines x [A, B]` into pipeline `C`'s `process` yields the
value of `chain_pipelines x [A, B, C]`. -/
theorem chain_pipelines_assoc (m : NexusManager) (x : Data) (A B C : Int)
    (hA : 0 ≤ A ∧ A.toNat < m.pipelines.length)
    (hB : 0 ≤ B ∧ B.toNat < m.pipelines.length)
    (hC : 0 ≤ C ∧ C.toNat < m.pipelines.length) (v : Data)
    (h : m.chain_pipelines x [A, B] = Except.ok v) :
    m.chain_pipelines x [A, B, C]
      = Except.map Data.str (m.pipelines.get ⟨C.toNat, hC.2⟩ v) := by
  rw [chain_cons_in_range m x A [B] hA] at h
  rw [chain_cons_in_range m x A [B, C] hA]
  rcases hres1 : m.pipelines.get ⟨A.toNat, hA.2⟩ x with e1 | s1
  · rw [hres1] at h
    simp at h
  · rw [hres1] at h
    replace h : m.chain_pipelines (Data.str s1) [B] = Except.ok v := h
    show m.chain_pipelines (Data.str s1) [B, C]
        = Except.map Data.str (m.pipelines.get ⟨C.toNat, hC.2⟩ v)
    rw [chain_cons_in_range m (Data.str s1) B [] hB] at h
    rw [chain_cons_in_range m (Data.str s1) B [C] hB]
    rcases hres2 : m.pipelines.get ⟨B.toNat, hB.2⟩ (Data.str s1) with e2 | s2
    · rw [hres2] at h
      simp at h
    · rw [hres2] at h
      replace h : m.chain_pipelines (Data.str s2) [] = Except.ok v := h
      rw [NexusManager.chain_pipelines] at h
      have hv : v = Data.str s2 := by
        cases h
        rfl
      subst hv
      show m.chain_pipelines (Data.str s2) [C]
          = Except.map Data.str
              (m.pipelines.get ⟨C.toNat, hC.2⟩ (Data.str s2))
      rw [chain_cons_in_range m (Data.str s2) C [] hC]
      rcases hres3 : m.pipelines.get ⟨C.toNat, hC.2⟩ (Data.str s2) with e3 | s3
      · rfl
      · show m.chain_pipelines (Data.str s3) []
            = Except.map Data.str (Except.ok s3)
        rw [NexusManager.chain_pipelines]
        rfl

/-- Witness for C9: a single echoing pipeline chained as `[0, 0, 0]`. -/
theorem chain_pipelines_assoc_witness :
    mgrOne.chain_pipelines (Data.str "x") [0, 0, 0]
      = Except.map Data.str
          (mgrOne.pipelines.get ⟨(0 : Int).toNat, by decide⟩ (Data.str "x")) :=
  chain_pipelines_assoc mgrOne (Data.str "x") 0 0 0 (by decide) (by decide)
    (by decide) (Data.str "x") rfl

/-- Unfolding of one chain step whose pipeline returns normally. -/
theorem chain_cons_ok (m : NexusManager) (cur : Data) (i : Int)
    (rest : List Int) (h : 0 ≤ i ∧ i.toNat < m.pipelines.length) (s : String)
    (hs : m.pipelines.get ⟨i.toNat, h.2⟩ cur = Except.ok s) :
    m.chain_pipelines cur (i :: rest)
      = m.chain_pipelines (Data.str s) rest := by
  rw [chain_cons_in_range m cur i rest h, hs]

/-- Unfolding of one instrumented chain step whose pipeline returns
normally. -/
theorem chainTrace_cons_ok (m : NexusManager) (cur : Data) (i : Int)
    (rest : List Int) (h : 0 ≤ i ∧ i.toNat < m.pipelines.length) (s : String)
    (hs : m.pipelines.get ⟨i.toNat, h.2⟩ cur = Except.ok s) :
    m.chainTrace cur (i :: rest)
      = ((m.chainTrace (Data.str s) rest).1,
         (i.toNat, cur) :: (m.chainTrace (Data.str s) rest).2) := by
  rw [NexusManager.chainTrace, dif_pos h, hs]

/-- Unfolding of one instrumented chain step at an out-of-range index. -/
theorem chainTrace_cons_invalid (m : NexusManager) (cur : Data) (i : Int)
    (rest : List Int) (h : ¬ (0 ≤ i ∧ i.toNat < m.pipelines.length)) :
    m.chainTrace cur (i :: rest)
      = (Except.ok (Data.str ("Error: Invalid pipeline index "
          ++ toString i)), []) := by
  rw [NexusManager.chainTrace, dif_neg h]

/-- On an all-in-range index list, the source `chain_pipelines` agrees
with the spec-side threading function. -/
theorem chain_eq_spec_thread (m : NexusManager) :
    ∀ (idxs : List Int) (data : Data),
      (∀ i ∈ idxs, 0 ≤ i ∧ i.toNat < m.pipelines.length) →
      m.chain_pipelines data idxs = chainSpecThread m data idxs := by
  intro idxs
  induction idxs with
  | nil =>
    intro data _
    rfl
  | cons i rest ih =>
    intro data h
    have hi := h i (List.mem_cons_self i rest)
    rw [chain_cons_in_range m data i rest hi]
    rw [chainSpecThread]
    have hg : m.pipelines.getD i.toNat (fun _ => Except.error "")
        = m.pipelines.get ⟨i.toNat, hi.2⟩ := by
      rw [List.getD_eq_getElem m.pipelines _ hi.2, List.get_eq_getElem]
    rw [hg]
    rcases hres : m.pipelines.get ⟨i.toNat, hi.2⟩ data with e | s
    · rfl
    · exact ih (Data.str s) (fun j hj => h j (List.mem_cons_of_mem i hj))

/-- Threading an in-range, normally-returning prefix, the chain stops at
the first out-of-range index with the indexed error string, having
invoked exactly the prefix pipelines. -/
theorem chain_invalid_short_circuit (m : NexusManager)
    (hno : ∀ p ∈ m.pipelines, ∀ d, ∃ s, p d = Except.ok s) :
    ∀ (pre : List Int) (data : Data) (k : Int) (post : List Int),
      (∀ i ∈ pre, 0 ≤ i ∧ i.toNat < m.pipelines.length) →
      ¬ (0 ≤ k ∧ k.toNat < m.pipelines.length) →
      m.chain_pipelines data (pre ++ k :: post)
          = Except.ok (Data.str ("Error: Invalid pipeline index "
              ++ toString k))
      ∧ (m.chainTrace data (pre ++ k :: post)).2.length = pre.length := by
  intro pre
  induction pre with
  | nil =>
    intro data k post _ hk
    refine ⟨?_, ?_⟩
    · rw [List.nil_append]
      exact chain_cons_invalid m data k post hk
    · rw [List.nil_append, chainTrace_cons_invalid m data k post hk]
      rfl
  | cons i rest ih =>
    intro data k post hpre hk
    have hi := hpre i (List.mem_cons_self i rest)
    obtain ⟨s, hs⟩ := hno (m.pipelines.get ⟨i.toNat, hi.2⟩)
      (List.get_mem m.pipelines _ hi.2) data
    have hrec := ih (Data.str s) k post
      (fun j hj => hpre j (List.mem_cons_of_mem i hj)) hk
    refine ⟨?_, ?_⟩
    · rw [List.cons_append,
        chain_cons_ok m data i (rest ++ k :: post) hi s hs]
      exact hrec.1
    · rw [List.cons_append,
        chainTrace_cons_ok m data i (rest ++ k :: post) hi s hs]
      simp [hrec.2]

/-- C4: over normally-returning pipelines, `chain_pipelines` threads the
input through the indexed pipelines in order (it agrees with the
spec-side threading function when every index is in range), and at the
first out-of-range index `k` it stops and returns
`"Error: Invalid pipeline index <k>"` having invoked only the pipelines
before `k`. -/
theorem chain_pipelines_threading (m : NexusManager) (data : Data)
    (idxs : List Int)
    (hno : ∀ p ∈ m.pipelines, ∀ d, ∃ s, p d = Except.ok s) :
    ((∀ i ∈ idxs, 0 ≤ i ∧ i.toNat < m.pipelines.length) →
       m.chain_pipelines data idxs = chainSpecThread m data idxs)
    ∧ (∀ pre k post, idxs = pre ++ k :: post →
        (∀ i ∈ pre, 0 ≤ i ∧ i.toNat < m.pipelines.length) →
        ¬ (0 ≤ k ∧ k.toNat < m.pipelines.length) →
        m.chain_pipelines data idxs
            = Except.ok (Data.str ("Error: Invalid pipeline index "
                ++ toString k))
        ∧ (m.chainTrace data idxs).2.length = pre.length) := by
  constructor
  · intro h
    exact chain_eq_spec_thread m idxs data h
  · intro pre k post heq hpre hk
    subst heq
    exact chain_invalid_short_circuit m hno pre data k post hpre hk

/-- Witness for C4: one echoing pipeline, index list `[0, 5]`. -/
theorem chain_pipelines_threading_witness :
    mgrOne.chain_pipelines (Data.str "x") [0, 5]
        = Except.ok (Data.str ("Error: Invalid pipeline index "
            ++ toString (5 : Int)))
    ∧ (mgrOne.chainTrace (Data.str "x") [0, 5]).2.length
        = ([(0 : Int)] : List Int).length :=
  (chain_pipelines_threading mgrOne (Data.str "x") [0, 5]
      (by
        intro p hp d
        simp [mgrOne] at hp
        subst hp
        exact ⟨pyStr d, rfl⟩)).2
    [0] 5 [] rfl (by decide) (by decide)

/-- Folding deque appends over a list keeps the last `c` elements of
the concatenation. -/
theorem dequeAppend_foldl (c : Nat) :
    ∀ (xs buf : List Data), buf.length ≤ c →
      List.foldl (dequeAppend c) buf xs
        = (buf ++ xs).drop (buf.length + xs.length - c) := by
  intro xs
  induction xs with
  | nil =>
    intro buf h
    simp [Nat.sub_eq_zero_of_le h]
  | cons y ys ih =>
    intro buf h
    rw [List.foldl_cons]
    have hlen : (dequeAppend c buf y).length ≤ c := by
      simp [dequeAppend]
      omega
    rw [ih (dequeAppend c buf y) hlen]
    have hk : buf.length + 1 - c ≤ (buf ++ [y]).length := by
      simp only [List.length_append, List.length_cons, List.length_nil]
      omega
    simp only [dequeAppend, List.length_append, List.length_cons,
      List.length_nil, Nat.add_zero]
    rw [← List.drop_append_of_le_length hk, List.drop_drop]
    have hassoc : (buf ++ [y]) ++ ys = buf ++ y :: ys := by
      simp
    rw [hassoc]
    congr 1
    simp only [List.length_drop, List.length_append, List.length_cons,
      List.length_nil]
    omega

/-- C5: appending any 150 items to the stream buffer leaves exactly the
last 100 in their original order (the oldest 50 evicted), and the
buffer's size never exceeds 100 at any point of the sequence. -/
theorem stream_buffer_capacity_fifo (xs : List Data)
    (h : xs.length = 150) :
    List.foldl (dequeAppend 100) [] xs = xs.drop 50
    ∧ ∀ n : Nat,
        (List.foldl (dequeAppend 100) [] (xs.take n)).length ≤ 100 := by
  constructor
  · have hf := dequeAppend_foldl 100 xs [] (by simp)
    simpa [h] using hf
  · intro n
    have hf := dequeAppend_foldl 100 (xs.take n) [] (by simp)
    rw [List.nil_append] at hf
    rw [hf]
    simp [List.length_drop]
    omega

/-- Witness for C5: 150 copies of the integer 0. -/
theorem stream_buffer_capacity_fifo_witness :
    List.foldl (dequeAppend 100) [] (List.replicate 150 (Data.int 0))
        = (List.replicate 150 (Data.int 0)).drop 50
    ∧ ∀ n : Nat,
        (List.foldl (dequeAppend 100)
          [] ((List.replicate 150 (Data.int 0)).take n)).length ≤ 100 :=
  stream_buffer_capacity_fifo (List.replicate 150 (Data.int 0)) (by simp)
